import Mathlib

/-!
Verification development for the NexGen-university accounts app.

The definitions below are a shallow embedding of the validation logic in
`accounts/models.py` (the `clean`/`save` methods of `Student`,
`FacultyMember`, `StaffMember`, `Alumni` and the profile role
synchronisation they perform) and of the cross-field checks of
`accounts/forms.py` (`StudentRegistrationForm.clean`,
`StaffRegistrationForm.clean`).

Modelling conventions:
* Python `datetime.date` values are records of year/month/day; Python
  compares them field-lexicographically and `(a - b).days` is the
  difference of their proleptic-Gregorian day numbers.
* `timezone.now()` is threaded through every validator as an explicit
  `today : Date` parameter (the repository reads the ambient clock).
* The enumerated `CharField` choice sets (`user_type`,
  `academic_status`) are embedded as inductive types.
* Python strings holding identifiers are embedded as `List Char`.
* A Django `ValidationError({f: m})` is the value `CleanError.field f m`;
  code raising it stops the `clean` method at that point, so each
  `clean` is a chain of conditionals that returns at the first failure.
* A staff record's `clean` walks supervisor references through the
  database; the database of saved staff rows is a `List StaffRow` and
  foreign-key dereference is lookup by primary key.  The Python `while`
  loop is embedded with explicit fuel; `db.length + 1` units of fuel are
  proved sufficient below (`walkLoop_no_fuel_exhaustion`).
-/

/-- Calendar date (proleptic Gregorian), as Python's `datetime.date`. -/
structure Date where
  year : Nat
  month : Nat
  day : Nat
deriving DecidableEq, Repr

/-- Python's field-lexicographic `date` comparison `a < b`. -/
def dateLt (a b : Date) : Bool :=
  Nat.blt a.year b.year ||
    (a.year == b.year && (Nat.blt a.month b.month ||
      (a.month == b.month && Nat.blt a.day b.day)))

/-- Python's `a <= b` on dates. -/
def dateLe (a b : Date) : Bool :=
  dateLt a b || a == b

/-- Day number of a date (days-from-civil algorithm, proleptic Gregorian,
counted from an arbitrary fixed epoch).  Only differences of day numbers
are used, mirroring Python's `(a - b).days`. -/
def Date.toDays (d : Date) : Int :=
  let y := if d.month ≤ 2 then d.year - 1 else d.year
  let era := y / 400
  let yoe := y % 400
  let mp := if d.month > 2 then d.month - 3 else d.month + 9
  let doy := (153 * mp + 2) / 5 + d.day - 1
  let doe := yoe * 365 + yoe / 4 - yoe / 100 + doy
  (era * 146097 + doe : Int)

/-- `Profile.USER_TYPE_CHOICES` from `accounts/models.py`. -/
inductive UserType
  | student
  | faculty
  | staff
  | admin
  | other
deriving DecidableEq, Repr

/-- `Student.STATUS_CHOICES` from `accounts/models.py`. -/
inductive AcademicStatus
  | active
  | on_leave
  | graduated
  | withdrawn
  | suspended
deriving DecidableEq, Repr

/-- The slice of `Profile` the role records read and write: its role tag.
(The remaining `Profile` fields are never consulted by the validators
under study.) -/
structure Profile where
  user_type : UserType
deriving DecidableEq, Repr

/-- `Student` fields consulted by its validators. -/
structure Student where
  profile : Profile
  student_id : List Char
  enrollment_date : Option Date
  expected_graduation : Option Date
  academic_status : AcademicStatus
deriving DecidableEq, Repr

/-- `FacultyMember` fields consulted by its validators. -/
structure FacultyMember where
  profile : Profile
  hire_date : Date
deriving DecidableEq, Repr

/-- A saved `StaffMember` row as seen through foreign-key dereference:
primary key, supervisor foreign key, admin level. -/
structure StaffRow where
  id : Nat
  supervisor : Option Nat
  admin_level : Nat
deriving DecidableEq, Repr

/-- The `StaffMember` record under validation.  `id` is `none` for an
unsaved record (Python `self.id is None`). -/
structure StaffMember where
  id : Option Nat
  profile : Profile
  hire_date : Date
  supervisor : Option Nat
  admin_level : Nat
deriving DecidableEq, Repr

/-- `Alumni` fields consulted by its validators, with its linked
`Student`. -/
structure Alumni where
  student : Student
  graduation_year : Nat
  last_contact_date : Option Date
deriving DecidableEq, Repr

/-- Outcome of raising inside a `clean` method: a field-keyed
`ValidationError`, an ORM `DoesNotExist` escape while dereferencing a
supervisor key, or the modelling artifact of fuel exhaustion in the
embedded supervisor walk (proved unreachable). -/
inductive CleanError
  | field (name : String) (msg : String)
  | doesNotExist
  | nonTermination
deriving DecidableEq, Repr

/-- Result of running a `clean` method: the error raised (if any), the
record as left in memory, and whether `self.profile.save()` was
executed during validation. -/
structure CleanOut (α : Type) where
  error : Option CleanError
  self : α
  profileSaved : Bool
deriving DecidableEq, Repr

/-- Python `str.startswith(c)` for a one-character needle. -/
def pyStartsWith (c : Char) (s : List Char) : Bool :=
  match s with
  | [] => false
  | a :: _ => a == c

/-- Python `str.isdigit()` (ASCII digits; empty string is `False`). -/
def pyIsDigit (s : List Char) : Bool :=
  !s.isEmpty && s.all (fun a => a.isDigit)

/-- Python truthiness test `d and d > today` on an optional date field. -/
def optDateFuture (today : Date) (d : Option Date) : Bool :=
  match d with
  | some e => dateLt today e
  | none => false

/-- `self.enrollment_date and self.expected_graduation and
self.expected_graduation <= self.enrollment_date`. -/
def gradNotAfterEnroll (s : Student) : Bool :=
  match s.enrollment_date, s.expected_graduation with
  | some e, some g => dateLe g e
  | _, _ => false

/-- `Student.clean` (`accounts/models.py`): date checks, `student_id`
format check, then the profile role synchronisation. -/
def studentClean (today : Date) (s : Student) : CleanOut Student :=
  if optDateFuture today s.enrollment_date then
    ⟨some (CleanError.field "enrollment_date"
      "Enrollment date cannot be in the future."), s, false⟩
  else if gradNotAfterEnroll s then
    ⟨some (CleanError.field "expected_graduation"
      "Expected graduation must be after enrollment date."), s, false⟩
  else if !pyStartsWith 'S' s.student_id || !pyIsDigit (s.student_id.drop 1) then
    ⟨some (CleanError.field "student_id"
      "Student ID must start with \"S\" followed by numbers."), s, false⟩
  else if s.profile.user_type ≠ UserType.student then
    ⟨none, { s with profile := { s.profile with user_type := UserType.student } }, true⟩
  else
    ⟨none, s, false⟩

/-- `FacultyMember.clean` (`accounts/models.py`). -/
def facultyClean (today : Date) (f : FacultyMember) : CleanOut FacultyMember :=
  if dateLt today f.hire_date then
    ⟨some (CleanError.field "hire_date"
      "Hire date cannot be in the future."), f, false⟩
  else if f.profile.user_type ≠ UserType.faculty then
    ⟨none, { f with profile := { f.profile with user_type := UserType.faculty } }, true⟩
  else
    ⟨none, f, false⟩

/-- Foreign-key dereference: find the staff row with primary key `i`. -/
def findStaff (db : List StaffRow) (i : Nat) : Option StaffRow :=
  db.find? (fun r => r.id == i)

/-- Outcome of the supervisor-chain walk in `StaffMember.clean`. -/
inductive WalkOut
  | ok
  | circular
  | dangling
  | outOfFuel
deriving DecidableEq, Repr

/-- The `while supervisor:` loop of `StaffMember.clean`, with explicit
fuel.  `seen` is the `seen_supervisors` set (it holds `self.id`, which
may be Python `None`, hence `Option Nat`). -/
def walkLoop (db : List StaffRow) :
    Nat → List (Option Nat) → Option StaffRow → WalkOut
  | _, _, none => WalkOut.ok
  | 0, _, some _ => WalkOut.outOfFuel
  | fuel + 1, seen, some r =>
    if some r.id ∈ seen then WalkOut.circular
    else
      match r.supervisor with
      | none => WalkOut.ok
      | some j =>
        match findStaff db j with
        | none => WalkOut.dangling
        | some r2 => walkLoop db fuel (some r.id :: seen) (some r2)

/-- The profile role synchronisation at the end of `StaffMember.clean`. -/
def staffSync (s : StaffMember) : CleanOut StaffMember :=
  if s.profile.user_type ≠ UserType.staff then
    ⟨none, { s with profile := { s.profile with user_type := UserType.staff } }, true⟩
  else
    ⟨none, s, false⟩

/-- `StaffMember.clean` (`accounts/models.py`): hire-date check,
self-supervision check, supervisor-cycle walk, then profile role
synchronisation. -/
def staffClean (db : List StaffRow) (today : Date) (s : StaffMember) :
    CleanOut StaffMember :=
  if dateLt today s.hire_date then
    ⟨some (CleanError.field "hire_date"
      "Hire date cannot be in the future."), s, false⟩
  else
    match s.supervisor with
    | none => staffSync s
    | some j =>
      match findStaff db j with
      | none => ⟨some CleanError.doesNotExist, s, false⟩
      | some r0 =>
        if s.id == some r0.id then
          ⟨some (CleanError.field "supervisor"
            "A staff member cannot be their own supervisor."), s, false⟩
        else
          match walkLoop db (db.length + 1) [s.id] (some r0) with
          | WalkOut.ok => staffSync s
          | WalkOut.circular =>
            ⟨some (CleanError.field "supervisor"
              "Circular supervision hierarchy detected."), s, false⟩
          | WalkOut.dangling => ⟨some CleanError.doesNotExist, s, false⟩
          | WalkOut.outOfFuel => ⟨some CleanError.nonTermination, s, false⟩

/-- Write the staff row for a validated record (`super().save()`): update
in place when the primary key exists, otherwise append with a fresh key. -/
def upsertStaff (db : List StaffRow) (r : StaffRow) : List StaffRow :=
  if db.any (fun x => x.id == r.id) then
    db.map (fun x => if x.id == r.id then r else x)
  else
    db ++ [r]

/-- `StaffMember.save`: `full_clean` (here, `clean`) and then the row
write; a validation error aborts before anything is written. -/
def staffSave (db : List StaffRow) (today : Date) (s : StaffMember) :
    List StaffRow × CleanOut StaffMember :=
  let out := staffClean db today s
  match out.error with
  | some _ => (db, out)
  | none =>
    let newId := match s.id with
      | some i => i
      | none => (db.map (fun r => r.id)).foldr max 0 + 1
    (upsertStaff db ⟨newId, s.supervisor, s.admin_level⟩, out)

/-- `self.student.enrollment_date and
self.graduation_year < self.student.enrollment_date.year`. -/
def gradBeforeEnrollYear (a : Alumni) : Bool :=
  match a.student.enrollment_date with
  | some e => Nat.blt a.graduation_year e.year
  | none => false

/-- `Alumni.clean` (`accounts/models.py`): graduation-year checks against
the current year, the founding year 1950, and the linked student's
enrollment year, then the last-contact-date check. -/
def alumniClean (today : Date) (a : Alumni) : Option CleanError :=
  if a.graduation_year > today.year then
    some (CleanError.field "graduation_year"
      "Graduation year cannot be in the future.")
  else if a.graduation_year < 1950 then
    some (CleanError.field "graduation_year"
      "Graduation year cannot be before university founding in 1950.")
  else if gradBeforeEnrollYear a then
    some (CleanError.field "graduation_year"
      "Graduation year cannot be before enrollment year.")
  else if optDateFuture today a.last_contact_date then
    some (CleanError.field "last_contact_date"
      "Last contact date cannot be in the future.")
  else
    none

/-- `Alumni.save`: `full_clean`, then `update_student_status` (which
writes the linked student's status — via `Student.save`, hence through
`Student.clean` — only when it is not already `graduated`), then the
alumni row write.  Returns the in-memory record and whether the student
row was written. -/
def alumniSave (today : Date) (a : Alumni) :
    Except CleanError (Alumni × Bool) :=
  match alumniClean today a with
  | some e => Except.error e
  | none =>
    if a.student.academic_status ≠ AcademicStatus.graduated then
      let s1 := { a.student with academic_status := AcademicStatus.graduated }
      let c := studentClean today s1
      match c.error with
      | some e => Except.error e
      | none => Except.ok ({ a with student := c.self }, true)
    else
      Except.ok (a, false)

/-- `StudentRegistrationForm.clean` (`accounts/forms.py`): the
cross-field date checks, collecting `add_error` calls in order.
`duration_years` is `duration_days / 365.25` computed exactly (the float
computation in the source cannot cross any of the compared bounds for
integer day counts of this magnitude). -/
def studentFormClean (enrollment_date expected_graduation : Option Date) :
    List (String × String) :=
  match enrollment_date, expected_graduation with
  | some e, some g =>
    (if dateLt g e then
      [("expected_graduation", "Graduation date cannot be before enrollment date.")]
     else []) ++
    (let duration_days : Int := Date.toDays g - Date.toDays e
     let duration_years : ℚ := (duration_days : ℚ) / (365.25 : ℚ)
     (if duration_years < 2 then
       [("expected_graduation", "Graduation date should be at least 2 years after enrollment.")]
      else []) ++
     (if duration_years > 8 then
       [("expected_graduation", "Graduation date should be within 8 years of enrollment.")]
      else []))
  | _, _ => []

/-- `StaffRegistrationForm.clean` (`accounts/forms.py`): the supervisor
admin-level rule (`if supervisor and admin_level:` guards the check, so
a zero, i.e. falsy, admin level skips it). -/
def staffFormClean (supervisor : Option StaffRow) (admin_level : Nat) :
    List (String × String) :=
  match supervisor with
  | some sup =>
    if admin_level ≠ 0 ∧ sup.admin_level < admin_level then
      [("supervisor", "Supervisor must have an equal or higher access level than subordinate.")]
    else []
  | none => []

/-- Declarative description of a complete supervisor chain in `db`:
each element's supervisor reference resolves (by key lookup) to the
next element and the last element has no supervisor. -/
def supPath (db : List StaffRow) : List StaffRow → Prop
  | [] => False
  | [x] => x.supervisor = none
  | x :: y :: rest =>
    (∃ j, x.supervisor = some j ∧ findStaff db j = some y) ∧
      supPath db (y :: rest)

/-- Primary keys of a list of staff rows. -/
def rowIds (l : List StaffRow) : List Nat := l.map (fun r => r.id)

/-- Number of staff primary keys not yet visited: the walk's
termination measure. -/
def staffMeasure (db : List StaffRow) (seen : List (Option Nat)) : Nat :=
  ((db.map (fun r => r.id)).toFinset.filter (fun i => some i ∉ seen)).card

/-- Referential integrity of the staff table: every stored supervisor
key resolves.  (A relational store enforces this on foreign keys.) -/
def staffDbClosed (db : List StaffRow) : Bool :=
  db.all (fun r =>
    match r.supervisor with
    | none => true
    | some k => (findStaff db k).isSome)

/-! ### Basic lemmas about the profile role synchronisation -/

theorem staffSync_error (s : StaffMember) : (staffSync s).error = none := by
  unfold staffSync; split <;> rfl

theorem staffSync_profile (s : StaffMember) :
    (staffSync s).self.profile.user_type = UserType.staff := by
  unfold staffSync; split <;> simp_all

theorem staffSync_saved (s : StaffMember) :
    (staffSync s).profileSaved = true ↔ s.profile.user_type ≠ UserType.staff := by
  unfold staffSync; split <;> simp_all

/-- Case analysis on `staffClean`: either it stops with an error and the
record is untouched, or all checks passed and it ends in `staffSync`. -/
theorem staffClean_cases (db : List StaffRow) (today : Date) (s : StaffMember) :
    (∃ e, staffClean db today s = ⟨some e, s, false⟩) ∨
      staffClean db today s = staffSync s := by
  unfold staffClean
  split
  · exact Or.inl ⟨_, rfl⟩
  split
  · exact Or.inr rfl
  split
  · exact Or.inl ⟨_, rfl⟩
  split
  · exact Or.inl ⟨_, rfl⟩
  split
  · exact Or.inr rfl
  · exact Or.inl ⟨_, rfl⟩
  · exact Or.inl ⟨_, rfl⟩
  · exact Or.inl ⟨_, rfl⟩

/-- Case analysis on `studentClean`. -/
theorem studentClean_cases (today : Date) (s : Student) :
    (∃ e, studentClean today s = ⟨some e, s, false⟩) ∨
      (studentClean today s =
        ⟨none, { s with profile := { s.profile with user_type := UserType.student } }, true⟩ ∧
       s.profile.user_type ≠ UserType.student) ∨
      (studentClean today s = ⟨none, s, false⟩ ∧
       s.profile.user_type = UserType.student) := by
  unfold studentClean
  split
  · exact Or.inl ⟨_, rfl⟩
  split
  · exact Or.inl ⟨_, rfl⟩
  split
  · exact Or.inl ⟨_, rfl⟩
  split
  · next h => exact Or.inr (Or.inl ⟨rfl, h⟩)
  · next h => exact Or.inr (Or.inr ⟨rfl, not_not.mp h⟩)

/-- Case analysis on `facultyClean`. -/
theorem facultyClean_cases (today : Date) (f : FacultyMember) :
    (∃ e, facultyClean today f = ⟨some e, f, false⟩) ∨
      (facultyClean today f =
        ⟨none, { f with profile := { f.profile with user_type := UserType.faculty } }, true⟩ ∧
       f.profile.user_type ≠ UserType.faculty) ∨
      (facultyClean today f = ⟨none, f, false⟩ ∧
       f.profile.user_type = UserType.faculty) := by
  unfold facultyClean
  split
  · exact Or.inl ⟨_, rfl⟩
  split
  · next h => exact Or.inr (Or.inl ⟨rfl, h⟩)
  · next h => exact Or.inr (Or.inr ⟨rfl, not_not.mp h⟩)

theorem gradNotAfterEnroll_profile (s : Student) (p : Profile) :
    gradNotAfterEnroll { s with profile := p } = gradNotAfterEnroll s := rfl

/-- The error raised by `studentClean` does not depend on the profile's
role tag (the mismatch branch only corrects, it never raises). -/
theorem studentClean_error_profile_indep (today : Date) (s : Student) (p : Profile) :
    (studentClean today { s with profile := p }).error = (studentClean today s).error := by
  unfold studentClean
  repeat' split <;> simp_all [gradNotAfterEnroll_profile]

theorem facultyClean_error_profile_indep (today : Date) (f : FacultyMember) (p : Profile) :
    (facultyClean today { f with profile := p }).error = (facultyClean today f).error := by
  unfold facultyClean
  dsimp only
  repeat' split <;> first | rfl | simp_all

theorem staffClean_error_profile_indep (db : List StaffRow) (today : Date)
    (s : StaffMember) (p : Profile) :
    (staffClean db today { s with profile := p }).error = (staffClean db today s).error := by
  unfold staffClean
  dsimp only
  repeat' split
  all_goals first | rfl | simp_all [staffSync_error]

theorem studentClean_success_tag (today : Date) (s : Student)
    (h : (studentClean today s).error = none) :
    (studentClean today s).self.profile.user_type = UserType.student := by
  rcases studentClean_cases today s with ⟨e, hc⟩ | ⟨hc, _⟩ | ⟨hc, ht⟩
  · rw [hc] at h; cases h
  · rw [hc]
  · rw [hc]; exact ht

theorem studentClean_saved_false_of_match (today : Date) (s : Student)
    (h : s.profile.user_type = UserType.student) :
    (studentClean today s).profileSaved = false := by
  rcases studentClean_cases today s with ⟨e, hc⟩ | ⟨hc, ht⟩ | ⟨hc, _⟩
  · rw [hc]
  · exact absurd h ht
  · rw [hc]

theorem studentClean_preserves_status (today : Date) (s : Student) :
    (studentClean today s).self.academic_status = s.academic_status := by
  rcases studentClean_cases today s with ⟨e, hc⟩ | ⟨hc, _⟩ | ⟨hc, _⟩ <;> rw [hc]

/-! ### Claim theorems -/

/-- C2: whenever a role record (`Student`, `FacultyMember`, or
`StaffMember`) is validated prior to persistence and its owning
profile's role tag differs from the record's kind, `clean` overwrites
the tag to the matching value and executes `profile.save()` during
validation itself — before the role record's own row is written, since
`save` only writes after `clean` returns; the mismatch never causes an
error (the error outcome is the same as with a matching tag). -/
theorem role_sync_corrects_profile_tag :
    (∀ (today : Date) (s : Student),
      ((studentClean today s).error =
        (studentClean today
          { s with profile := { s.profile with user_type := UserType.student } }).error) ∧
      (s.profile.user_type ≠ UserType.student → (studentClean today s).error = none →
        (studentClean today s).self.profile.user_type = UserType.student ∧
        (studentClean today s).profileSaved = true)) ∧
    (∀ (today : Date) (f : FacultyMember),
      ((facultyClean today f).error =
        (facultyClean today
          { f with profile := { f.profile with user_type := UserType.faculty } }).error) ∧
      (f.profile.user_type ≠ UserType.faculty → (facultyClean today f).error = none →
        (facultyClean today f).self.profile.user_type = UserType.faculty ∧
        (facultyClean today f).profileSaved = true)) ∧
    (∀ (db : List StaffRow) (today : Date) (s : StaffMember),
      ((staffClean db today s).error =
        (staffClean db today
          { s with profile := { s.profile with user_type := UserType.staff } }).error) ∧
      (s.profile.user_type ≠ UserType.staff → (staffClean db today s).error = none →
        (staffClean db today s).self.profile.user_type = UserType.staff ∧
        (staffClean db today s).profileSaved = true)) := by
  refine ⟨fun today s => ⟨?_, ?_⟩, fun today f => ⟨?_, ?_⟩, fun db today s => ⟨?_, ?_⟩⟩
  · exact (studentClean_error_profile_indep today s _).symm
  · intro hm he
    rcases studentClean_cases today s with ⟨e, hc⟩ | ⟨hc, _⟩ | ⟨hc, ht⟩
    · rw [hc] at he; cases he
    · rw [hc]; exact ⟨rfl, rfl⟩
    · exact absurd ht hm
  · exact (facultyClean_error_profile_indep today f _).symm
  · intro hm he
    rcases facultyClean_cases today f with ⟨e, hc⟩ | ⟨hc, _⟩ | ⟨hc, ht⟩
    · rw [hc] at he; cases he
    · rw [hc]; exact ⟨rfl, rfl⟩
    · exact absurd ht hm
  · exact (staffClean_error_profile_indep db today s _).symm
  · intro hm he
    rcases staffClean_cases db today s with ⟨e, hc⟩ | hc
    · rw [hc] at he; cases he
    · rw [hc]; exact ⟨staffSync_profile s, (staffSync_saved s).mpr hm⟩

/-- C2 witness: a student record whose profile is tagged `other` has its
tag corrected to `student` and the profile saved during validation. -/
theorem role_sync_corrects_profile_tag_witness :
    (studentClean ⟨2025, 1, 1⟩
        ⟨⟨UserType.other⟩, ['S', '1'], some ⟨2020, 9, 1⟩, none,
          AcademicStatus.active⟩).self.profile.user_type = UserType.student ∧
    (studentClean ⟨2025, 1, 1⟩
        ⟨⟨UserType.other⟩, ['S', '1'], some ⟨2020, 9, 1⟩, none,
          AcademicStatus.active⟩).profileSaved = true :=
  (role_sync_corrects_profile_tag.1 ⟨2025, 1, 1⟩
    ⟨⟨UserType.other⟩, ['S', '1'], some ⟨2020, 9, 1⟩, none,
      AcademicStatus.active⟩).2 (by decide) (by decide)

/-- C8: validating a student whose profile already carries the tag
`student` performs no corrective profile write (the record is returned
untouched and `profile.save()` is not executed), and after any
successful validation a repeated validation also performs no profile
write — the synchronisation is idempotent. -/
theorem student_role_sync_idempotent (today : Date) (s : Student)
    (h : s.profile.user_type = UserType.student) :
    (studentClean today s).profileSaved = false ∧
    (studentClean today s).self = s ∧
    (∀ (today2 : Date) (s2 : Student), (studentClean today2 s2).error = none →
      (studentClean today2 (studentClean today2 s2).self).profileSaved = false) := by
  refine ⟨studentClean_saved_false_of_match today s h, ?_, ?_⟩
  · rcases studentClean_cases today s with ⟨e, hc⟩ | ⟨hc, ht⟩ | ⟨hc, _⟩
    · rw [hc]
    · exact absurd h ht
    · rw [hc]
  · intro today2 s2 h2
    exact studentClean_saved_false_of_match today2 _ (studentClean_success_tag today2 s2 h2)

/-- C8 witness: concrete student with a matching profile tag. -/
theorem student_role_sync_idempotent_witness :
    (studentClean ⟨2025, 1, 1⟩
        ⟨⟨UserType.student⟩, ['S', '1'], some ⟨2020, 9, 1⟩, none,
          AcademicStatus.active⟩).profileSaved = false ∧
    (studentClean ⟨2025, 1, 1⟩
        ⟨⟨UserType.student⟩, ['S', '1'], some ⟨2020, 9, 1⟩, none,
          AcademicStatus.active⟩).self =
      ⟨⟨UserType.student⟩, ['S', '1'], some ⟨2020, 9, 1⟩, none,
        AcademicStatus.active⟩ :=
  ⟨(student_role_sync_idempotent ⟨2025, 1, 1⟩ _ (by decide)).1,
   (student_role_sync_idempotent ⟨2025, 1, 1⟩ _ (by decide)).2.1⟩

/-- C10: when `StaffMember.clean` raises (hire-date check,
self-supervision check, cycle check, or a failed supervisor
dereference), the record — in particular its owning profile — is left
exactly as it was and no profile save is executed: the corrective
role-tag overwrite runs only after every earlier check has passed. -/
theorem staff_clean_failure_leaves_profile_untouched
    (db : List StaffRow) (today : Date) (s : StaffMember)
    (h : (staffClean db today s).error.isSome) :
    (staffClean db today s).self = s ∧
    (staffClean db today s).profileSaved = false := by
  rcases staffClean_cases db today s with ⟨e, hc⟩ | hc
  · rw [hc]; exact ⟨rfl, rfl⟩
  · rw [hc] at h; simp [staffSync_error] at h

/-- C10 witness: a staff record with a future hire date fails validation
with its profile (tagged `other`) untouched. -/
theorem staff_clean_failure_leaves_profile_untouched_witness :
    (staffClean [] ⟨2025, 1, 1⟩
        ⟨none, ⟨UserType.other⟩, ⟨2030, 1, 1⟩, none, 1⟩).self =
      ⟨none, ⟨UserType.other⟩, ⟨2030, 1, 1⟩, none, 1⟩ ∧
    (staffClean [] ⟨2025, 1, 1⟩
        ⟨none, ⟨UserType.other⟩, ⟨2030, 1, 1⟩, none, 1⟩).profileSaved = false :=
  staff_clean_failure_leaves_profile_untouched [] ⟨2025, 1, 1⟩
    ⟨none, ⟨UserType.other⟩, ⟨2030, 1, 1⟩, none, 1⟩ (by decide)

/-- C3: after every successful `Alumni.save` the linked student's
`academic_status` is `graduated`, and the student row is written by the
save exactly when the status was not already `graduated`. -/
theorem alumni_save_forces_graduated_status (today : Date) (a a' : Alumni)
    (wrote : Bool) (h : alumniSave today a = Except.ok (a', wrote)) :
    a'.student.academic_status = AcademicStatus.graduated ∧
    (wrote = true ↔ a.student.academic_status ≠ AcademicStatus.graduated) := by
  simp only [alumniSave] at h
  split at h
  · cases h
  · split at h
    · next hne =>
      split at h
      · cases h
      · next c hc =>
        simp only [Except.ok.injEq, Prod.mk.injEq] at h
        obtain ⟨h1, h2⟩ := h
        subst h1
        constructor
        · simp [studentClean_preserves_status]
        · simp [← h2, hne]
    · next hne =>
      simp only [Except.ok.injEq, Prod.mk.injEq] at h
      obtain ⟨h1, h2⟩ := h
      subst h1
      constructor
      · exact not_not.mp hne
      · simp [← h2, not_not.mp hne]

/-- C3 witness: saving an alumni record over an `active` student
succeeds, writes the student row, and leaves the status `graduated`. -/
theorem alumni_save_forces_graduated_status_witness :
    (⟨⟨⟨UserType.student⟩, ['S', '1'], some ⟨2016, 9, 1⟩, none,
        AcademicStatus.graduated⟩, 2020, none⟩ : Alumni).student.academic_status =
      AcademicStatus.graduated ∧
    (true = true ↔
      (⟨⟨⟨UserType.student⟩, ['S', '1'], some ⟨2016, 9, 1⟩, none,
          AcademicStatus.active⟩, 2020, none⟩ : Alumni).student.academic_status ≠
        AcademicStatus.graduated) :=
  alumni_save_forces_graduated_status ⟨2025, 1, 1⟩
    ⟨⟨⟨UserType.student⟩, ['S', '1'], some ⟨2016, 9, 1⟩, none,
        AcademicStatus.active⟩, 2020, none⟩
    ⟨⟨⟨UserType.student⟩, ['S', '1'], some ⟨2016, 9, 1⟩, none,
        AcademicStatus.graduated⟩, 2020, none⟩
    true rfl

/-- C6: `Alumni.clean` raises a field error on `graduation_year` exactly
when the year is in the future, before the 1950 founding year, or
before the linked student's enrollment year. -/
theorem alumni_graduation_year_errors (today : Date) (a : Alumni) (e : Date)
    (h : a.student.enrollment_date = some e) :
    (∃ msg, alumniClean today a = some (CleanError.field "graduation_year" msg)) ↔
      (a.graduation_year > today.year ∨ a.graduation_year < 1950 ∨
        a.graduation_year < e.year) := by
  unfold alumniClean gradBeforeEnrollYear
  rw [h]
  split
  · next h1 => simp [h1]
  · next h1 =>
    split
    · next h2 => simp [h2]
    · next h2 =>
      split
      · next h3 =>
        simp only [Nat.blt_eq] at h3
        simp [h3]
      · next h3 =>
        simp only [Nat.blt_eq] at h3
        split <;> simp [h1, h2, h3]

/-- C6 witness: with enrollment year 2016 and current year 2025, the
graduation years 1949, 2026 (current year + 1) and 2015 (enrollment
year - 1) are each rejected on the `graduation_year` field. -/
theorem alumni_graduation_year_errors_witness :
    (∃ msg, alumniClean ⟨2025, 1, 1⟩
        ⟨⟨⟨UserType.student⟩, ['S', '1'], some ⟨2016, 9, 1⟩, none,
            AcademicStatus.active⟩, 1949, none⟩ =
          some (CleanError.field "graduation_year" msg)) ∧
    (∃ msg, alumniClean ⟨2025, 1, 1⟩
        ⟨⟨⟨UserType.student⟩, ['S', '1'], some ⟨2016, 9, 1⟩, none,
            AcademicStatus.active⟩, 2026, none⟩ =
          some (CleanError.field "graduation_year" msg)) ∧
    (∃ msg, alumniClean ⟨2025, 1, 1⟩
        ⟨⟨⟨UserType.student⟩, ['S', '1'], some ⟨2016, 9, 1⟩, none,
            AcademicStatus.active⟩, 2015, none⟩ =
          some (CleanError.field "graduation_year" msg)) :=
  ⟨(alumni_graduation_year_errors ⟨2025, 1, 1⟩ _ ⟨2016, 9, 1⟩ rfl).mpr (by decide),
   (alumni_graduation_year_errors ⟨2025, 1, 1⟩ _ ⟨2016, 9, 1⟩ rfl).mpr (by decide),
   (alumni_graduation_year_errors ⟨2025, 1, 1⟩ _ ⟨2016, 9, 1⟩ rfl).mpr (by decide)⟩

/-- C7: `StaffRegistrationForm.clean` rejects a record with
`admin_level` 3 under a supervisor with `admin_level` 2 with a
field-level error on `supervisor`, and accepts one under a supervisor
with `admin_level` 3 or 4. -/
theorem staff_form_supervisor_admin_level_rule (sup : StaffRow) :
    (sup.admin_level = 2 →
      staffFormClean (some sup) 3 =
        [("supervisor",
          "Supervisor must have an equal or higher access level than subordinate.")]) ∧
    ((sup.admin_level = 3 ∨ sup.admin_level = 4) →
      staffFormClean (some sup) 3 = []) := by
  constructor
  · intro h
    simp [staffFormClean, h]
  · rintro (h | h) <;> simp [staffFormClean, h]

/-- C7 witness: concrete supervisors with admin levels 2, 3 and 4. -/
theorem staff_form_supervisor_admin_level_rule_witness :
    staffFormClean (some ⟨7, none, 2⟩) 3 =
      [("supervisor",
        "Supervisor must have an equal or higher access level than subordinate.")] ∧
    staffFormClean (some ⟨7, none, 3⟩) 3 = [] ∧
    staffFormClean (some ⟨7, none, 4⟩) 3 = [] :=
  ⟨(staff_form_supervisor_admin_level_rule ⟨7, none, 2⟩).1 rfl,
   (staff_form_supervisor_admin_level_rule ⟨7, none, 3⟩).2 (Or.inl rfl),
   (staff_form_supervisor_admin_level_rule ⟨7, none, 4⟩).2 (Or.inr rfl)⟩

theorem dateLt_iff (a b : Date) : dateLt a b = true ↔
    (a.year < b.year ∨ (a.year = b.year ∧
      (a.month < b.month ∨ (a.month = b.month ∧ a.day < b.day)))) := by
  simp [dateLt, Nat.blt_eq]

theorem dateLe_iff (a b : Date) : dateLe a b = true ↔
    (dateLt a b = true ∨ a = b) := by
  simp [dateLe]

/-- Totality of the date order: `¬ (a < b)` implies `b ≤ a`. -/
theorem date_le_of_not_lt (a b : Date) (h : dateLt a b = false) :
    dateLe b a = true := by
  have h1 : ¬ (dateLt a b = true) := by simp [h]
  rw [dateLt_iff] at h1
  rw [dateLe_iff, dateLt_iff]
  cases a with
  | mk y1 m1 d1 =>
    cases b with
    | mk y2 m2 d2 =>
      simp only [Date.mk.injEq]
      dsimp only at h1 ⊢
      omega

/-- Totality of the date order: `¬ (a ≤ b)` implies `b < a`. -/
theorem date_lt_of_not_le (a b : Date) (h : dateLe a b = false) :
    dateLt b a = true := by
  have h1 : ¬ (dateLe a b = true) := by simp [h]
  rw [dateLe_iff, dateLt_iff] at h1
  rw [dateLt_iff]
  cases a with
  | mk y1 m1 d1 =>
    cases b with
    | mk y2 m2 d2 =>
      simp only [Date.mk.injEq] at h1
      dsimp only at h1 ⊢
      omega

/-- C5: `Student.clean` enforces that the enrollment date is not in the
future and (when both dates are set) strictly precedes the expected
graduation; violating inputs raise a field-level error, and the dates
on the validated record are never altered. -/
theorem student_date_validation (today : Date) (s : Student) :
    ((studentClean today s).self.enrollment_date = s.enrollment_date ∧
     (studentClean today s).self.expected_graduation = s.expected_graduation) ∧
    (∀ e, s.enrollment_date = some e → dateLt today e = true →
      (studentClean today s).error =
        some (CleanError.field "enrollment_date"
          "Enrollment date cannot be in the future.")) ∧
    (∀ e g, s.enrollment_date = some e → s.expected_graduation = some g →
      dateLt today e = false → dateLe g e = true →
      (studentClean today s).error =
        some (CleanError.field "expected_graduation"
          "Expected graduation must be after enrollment date.")) ∧
    ((studentClean today s).error = none →
      (∀ e, s.enrollment_date = some e → dateLt today e = false) ∧
      (∀ e g, s.enrollment_date = some e → s.expected_graduation = some g →
        dateLt e g = true)) := by
  refine ⟨?_, ?_, ?_, ?_⟩
  · rcases studentClean_cases today s with ⟨e, hc⟩ | ⟨hc, _⟩ | ⟨hc, _⟩ <;>
      rw [hc] <;> exact ⟨rfl, rfl⟩
  · intro e he hlt
    have h0 : optDateFuture today s.enrollment_date = true := by
      simp [optDateFuture, he, hlt]
    simp [studentClean, h0]
  · intro e g he hg hlt hle
    have h0 : optDateFuture today s.enrollment_date = false := by
      simp [optDateFuture, he, hlt]
    have h1 : gradNotAfterEnroll s = true := by
      simp [gradNotAfterEnroll, he, hg, hle]
    simp [studentClean, h0, h1]
  · intro h
    unfold studentClean at h
    constructor
    · intro e he
      by_contra hne
      rw [Bool.not_eq_false] at hne
      rw [show optDateFuture today s.enrollment_date = true from by
        simp [optDateFuture, he, hne]] at h
      simp at h
    · intro e g he hg
      by_contra hne
      rw [Bool.not_eq_true] at hne
      have h1 : gradNotAfterEnroll s = true := by
        simp [gradNotAfterEnroll, he, hg, date_le_of_not_lt e g hne]
      split at h <;> simp_all

/-- C5 witness: a future enrollment date and a graduation date equal to
the enrollment date are each rejected on the corresponding field. -/
theorem student_date_validation_witness :
    (studentClean ⟨2025, 1, 1⟩
        ⟨⟨UserType.student⟩, ['S', '1'], some ⟨2030, 1, 1⟩, none,
          AcademicStatus.active⟩).error =
      some (CleanError.field "enrollment_date"
        "Enrollment date cannot be in the future.") ∧
    (studentClean ⟨2025, 1, 1⟩
        ⟨⟨UserType.student⟩, ['S', '1'], some ⟨2020, 9, 1⟩, some ⟨2020, 9, 1⟩,
          AcademicStatus.active⟩).error =
      some (CleanError.field "expected_graduation"
        "Expected graduation must be after enrollment date.") :=
  ⟨(student_date_validation ⟨2025, 1, 1⟩ _).2.1 ⟨2030, 1, 1⟩ rfl (by decide),
   (student_date_validation ⟨2025, 1, 1⟩ _).2.2.1 ⟨2020, 9, 1⟩ ⟨2020, 9, 1⟩
     rfl rfl (by decide) (by decide)⟩

/-- C4: with enrollment date 2020-09-01, validation accepts expected
graduation 2024-06-01 (`Student.clean` passes and the registration form
adds no date error), and the registration form rejects expected
graduation 2021-01-01 because the enrollment-to-graduation duration is
under 2 years. -/
theorem student_scenarioA_two_year_rule (today : Date)
    (h : dateLt today ⟨2020, 9, 1⟩ = false) :
    (studentClean today
      ⟨⟨UserType.student⟩, ['S', '1', '0', '0', '0', '1'], some ⟨2020, 9, 1⟩,
        some ⟨2024, 6, 1⟩, AcademicStatus.active⟩).error = none ∧
    studentFormClean (some ⟨2020, 9, 1⟩) (some ⟨2024, 6, 1⟩) = [] ∧
    studentFormClean (some ⟨2020, 9, 1⟩) (some ⟨2021, 1, 1⟩) =
      [("expected_graduation",
        "Graduation date should be at least 2 years after enrollment.")] := by
  refine ⟨?_, ?_, ?_⟩
  · have h0 : optDateFuture today (some (⟨2020, 9, 1⟩ : Date)) = false := by
      simp [optDateFuture, h]
    simp only [studentClean, h0, Bool.false_eq_true, if_false]
    decide
  · norm_num [studentFormClean, Date.toDays, dateLt, Nat.blt]
  · norm_num [studentFormClean, Date.toDays, dateLt, Nat.blt]

/-- C4 witness: scenario A evaluated at the concrete current date
2025-01-01. -/
theorem student_scenarioA_two_year_rule_witness :
    (studentClean ⟨2025, 1, 1⟩
      ⟨⟨UserType.student⟩, ['S', '1', '0', '0', '0', '1'], some ⟨2020, 9, 1⟩,
        some ⟨2024, 6, 1⟩, AcademicStatus.active⟩).error = none ∧
    studentFormClean (some ⟨2020, 9, 1⟩) (some ⟨2024, 6, 1⟩) = [] ∧
    studentFormClean (some ⟨2020, 9, 1⟩) (some ⟨2021, 1, 1⟩) =
      [("expected_graduation",
        "Graduation date should be at least 2 years after enrollment.")] :=
  student_scenarioA_two_year_rule ⟨2025, 1, 1⟩ (by decide)

/-! ### The supervisor chain walk: soundness, completeness, termination -/

theorem findStaff_mem (db : List StaffRow) (i : Nat) (r : StaffRow)
    (h : findStaff db i = some r) : r ∈ db :=
  List.mem_of_find?_eq_some h

/-- If the embedded walk reports success, an acyclic supervisor chain
(avoiding everything in `seen`) exists. -/
theorem walkLoop_ok_sound (db : List StaffRow) :
    ∀ (fuel : Nat) (seen : List (Option Nat)) (r : StaffRow),
      r ∈ db → walkLoop db fuel seen (some r) = WalkOut.ok →
      ∃ l, supPath db l ∧ l.head? = some r ∧ (∀ x ∈ l, x ∈ db) ∧
        (rowIds l).Nodup ∧ (∀ i ∈ rowIds l, some i ∉ seen) := by
  intro fuel
  induction fuel with
  | zero =>
    intro seen r _ hw
    simp [walkLoop] at hw
  | succ n ih =>
    intro seen r hmem hw
    simp only [walkLoop] at hw
    split at hw
    · cases hw
    · next hseen =>
      split at hw
      · next hsup =>
        refine ⟨[r], hsup, rfl, by simpa using hmem, by simp [rowIds], ?_⟩
        intro i hi
        simp [rowIds] at hi
        subst hi
        exact hseen
      · next k hk =>
        split at hw
        · cases hw
        · next r2 hfind =>
          obtain ⟨l2, hp2, hh2, hm2, hnd2, hs2⟩ :=
            ih (some r.id :: seen) r2 (findStaff_mem db k r2 hfind) hw
          cases l2 with
          | nil => cases hh2
          | cons a t =>
            have ha : a = r2 := by simpa using hh2
            refine ⟨r :: a :: t, ⟨⟨k, hk, by rw [ha]; exact hfind⟩, hp2⟩, rfl, ?_, ?_, ?_⟩
            · intro x hx
              rcases List.mem_cons.mp hx with rfl | hx2
              · exact hmem
              · exact hm2 x hx2
            · refine List.nodup_cons.mpr ⟨?_, hnd2⟩
              intro hc
              exact hs2 r.id hc (List.mem_cons_self _ _)
            · intro i hi
              rcases List.mem_cons.mp hi with rfl | hi2
              · exact hseen
              · intro hc
                exact hs2 i hi2 (List.mem_cons_of_mem _ hc)

/-- If an acyclic supervisor chain avoiding `seen` exists and the fuel
covers its length, the embedded walk reports success. -/
theorem walkLoop_complete (db : List StaffRow) :
    ∀ (l : List StaffRow) (r : StaffRow) (fuel : Nat) (seen : List (Option Nat)),
      supPath db l → l.head? = some r → (rowIds l).Nodup →
      (∀ i ∈ rowIds l, some i ∉ seen) → l.length ≤ fuel →
      walkLoop db fuel seen (some r) = WalkOut.ok := by
  intro l
  induction l with
  | nil => intro r fuel seen hp; cases hp
  | cons x t ih =>
    intro r fuel seen hp hh hnd hseen hlen
    have hx : x = r := by simpa using hh
    subst hx
    cases fuel with
    | zero => simp at hlen
    | succ n =>
      simp only [walkLoop]
      rw [if_neg (hseen x.id (by simp [rowIds]))]
      cases t with
      | nil =>
        have hsup : x.supervisor = none := hp
        rw [hsup]
      | cons y rest =>
        obtain ⟨⟨k, hk, hfind⟩, hp2⟩ := hp
        rw [hk]
        dsimp only
        rw [hfind]
        have hnd1 : (x.id :: rowIds (y :: rest)).Nodup := hnd
        refine ih y n (some x.id :: seen) hp2 rfl (List.nodup_cons.mp hnd1).2 ?_ ?_
        · intro i hi
          intro hc
          rcases List.mem_cons.mp hc with hc1 | hc2
          · have hix : i = x.id := by simpa using hc1
            exact (List.nodup_cons.mp hnd1).1 (hix ▸ hi)
          · exact hseen i (List.mem_cons_of_mem _ hi) hc2
        · simpa using Nat.succ_le_succ_iff.mp hlen

theorem staffMeasure_le (db : List StaffRow) (seen : List (Option Nat)) :
    staffMeasure db seen ≤ db.length := by
  unfold staffMeasure
  calc ((db.map (fun r => r.id)).toFinset.filter (fun i => some i ∉ seen)).card
      ≤ (db.map (fun r => r.id)).toFinset.card := Finset.card_filter_le _ _
    _ ≤ (db.map (fun r => r.id)).length := (db.map (fun r => r.id)).toFinset_card_le
    _ = db.length := List.length_map _ _

theorem staffMeasure_decreases (db : List StaffRow) (seen : List (Option Nat))
    (r : StaffRow) (hmem : r ∈ db) (hseen : some r.id ∉ seen) :
    staffMeasure db (some r.id :: seen) < staffMeasure db seen := by
  have hsub : (db.map (fun r => r.id)).toFinset.filter
        (fun i => some i ∉ (some r.id :: seen)) ⊆
      (db.map (fun r => r.id)).toFinset.filter (fun i => some i ∉ seen) := by
    intro x hx
    rw [Finset.mem_filter] at hx ⊢
    exact ⟨hx.1, fun hc => hx.2 (List.mem_cons_of_mem _ hc)⟩
  have hin : r.id ∈ (db.map (fun r => r.id)).toFinset.filter
      (fun i => some i ∉ seen) := by
    rw [Finset.mem_filter, List.mem_toFinset]
    exact ⟨List.mem_map_of_mem _ hmem, hseen⟩
  have hout : r.id ∉ (db.map (fun r => r.id)).toFinset.filter
      (fun i => some i ∉ (some r.id :: seen)) := by
    rw [Finset.mem_filter]
    rintro ⟨-, hx⟩
    exact hx (List.mem_cons_self _ _)
  exact Finset.card_lt_card
    ((Finset.ssubset_iff_of_subset hsub).mpr ⟨r.id, hin, hout⟩)

/-- The walk cannot exhaust its fuel while more fuel remains than
unvisited staff keys: each step visits a fresh key of `db`. -/
theorem walkLoop_no_fuel_exhaustion (db : List StaffRow) :
    ∀ (fuel : Nat) (seen : List (Option Nat)) (r : StaffRow),
      r ∈ db → staffMeasure db seen < fuel →
      walkLoop db fuel seen (some r) ≠ WalkOut.outOfFuel := by
  intro fuel
  induction fuel with
  | zero => intro seen r _ hlt; omega
  | succ n ih =>
    intro seen r hmem hlt
    simp only [walkLoop]
    split
    · simp
    · next hseen =>
      split
      · simp
      · next k hk =>
        split
        · simp
        · next r2 hfind =>
          refine ih (some r.id :: seen) r2 (findStaff_mem db k r2 hfind) ?_
          have hdec := staffMeasure_decreases db seen r hmem hseen
          omega

/-- When every supervisor reference in `db` resolves, the walk never
escapes with a failed dereference. -/
theorem walkLoop_no_dangling (db : List StaffRow)
    (hclosed : ∀ r ∈ db, ∀ k, r.supervisor = some k →
      ∃ r2, findStaff db k = some r2) :
    ∀ (fuel : Nat) (seen : List (Option Nat)) (r : StaffRow), r ∈ db →
      walkLoop db fuel seen (some r) ≠ WalkOut.dangling := by
  intro fuel
  induction fuel with
  | zero => intro seen r _; simp [walkLoop]
  | succ n ih =>
    intro seen r hmem
    simp only [walkLoop]
    split
    · simp
    · split
      · simp
      · next k hk =>
        split
        · next hnone =>
          obtain ⟨r2, hr2⟩ := hclosed r hmem k hk
          rw [hr2] at hnone
          cases hnone
        · next r2 hfind =>
          exact ih (some r.id :: seen) r2 (findStaff_mem db k r2 hfind)

theorem staffSave_error_no_write (db : List StaffRow) (today : Date)
    (s : StaffMember) (e : CleanError)
    (h : (staffClean db today s).error = some e) :
    (staffSave db today s).1 = db := by
  simp only [staffSave]
  split
  · rfl
  · next heq => rw [heq] at h; cases h

/-- C9: the supervisor-chain walk of `StaffMember.clean` terminates on
every finite staff database — even one already containing cycles —
within `db.length + 1` dereference steps, because each step adds a
fresh identity to the visited set; consequently `staffClean` never
produces the fuel-exhaustion artifact of the embedding. -/
theorem staff_cycle_walk_terminates :
    (∀ (db : List StaffRow) (seen : List (Option Nat)) (r : StaffRow),
      r ∈ db → walkLoop db (db.length + 1) seen (some r) ≠ WalkOut.outOfFuel) ∧
    (∀ (db : List StaffRow) (today : Date) (s : StaffMember),
      (staffClean db today s).error ≠ some CleanError.nonTermination) := by
  constructor
  · intro db seen r hmem
    exact walkLoop_no_fuel_exhaustion db (db.length + 1) seen r hmem
      (Nat.lt_succ_of_le (staffMeasure_le db seen))
  · intro db today s
    unfold staffClean
    split
    · simp
    · split
      · simp [staffSync_error]
      · split
        · simp
        · next r0 hfind =>
          split
          · simp
          · split
            · simp [staffSync_error]
            · simp
            · simp
            · next hw =>
              exact absurd hw (walkLoop_no_fuel_exhaustion db (db.length + 1)
                [s.id] r0 (findStaff_mem db _ r0 hfind)
                (Nat.lt_succ_of_le (staffMeasure_le db [s.id])))

/-- C9 witness: the walk halts (with a cycle report, not fuel
exhaustion) on a database that already contains a supervisor cycle. -/
theorem staff_cycle_walk_terminates_witness :
    walkLoop [⟨1, some 2, 1⟩, ⟨2, some 1, 1⟩]
        ([⟨1, some 2, 1⟩, ⟨2, some 1, 1⟩] : List StaffRow).length.succ
        [none] (some ⟨1, some 2, 1⟩) ≠ WalkOut.outOfFuel ∧
    (staffClean [⟨1, some 2, 1⟩, ⟨2, some 1, 1⟩] ⟨2025, 1, 1⟩
        ⟨some 3, ⟨UserType.staff⟩, ⟨2020, 1, 1⟩, some 1, 1⟩).error ≠
      some CleanError.nonTermination :=
  ⟨staff_cycle_walk_terminates.1 [⟨1, some 2, 1⟩, ⟨2, some 1, 1⟩] [none]
      ⟨1, some 2, 1⟩ (by decide),
   staff_cycle_walk_terminates.2 [⟨1, some 2, 1⟩, ⟨2, some 1, 1⟩] ⟨2025, 1, 1⟩
      ⟨some 3, ⟨UserType.staff⟩, ⟨2020, 1, 1⟩, some 1, 1⟩⟩

theorem staffDbClosed_spec (db : List StaffRow) (h : staffDbClosed db = true) :
    ∀ r ∈ db, ∀ k, r.supervisor = some k →
      ∃ r2, findStaff db k = some r2 := by
  intro r hr k hk
  have hall := List.all_eq_true.mp h r hr
  rw [hk] at hall
  exact Option.isSome_iff_exists.mp (by simpa using hall)

/-- C1: for a staff record with a proposed supervisor (hire date in
order, reference resolving to row `r0`, referentially intact staff
table): validation succeeds exactly when the supervisor chain from
`r0` is finite and acyclic — a chain of length at most the staff count
whose identities are distinct and avoid the record's own identity —
and every validation failure is a field-level error on `supervisor`
(self-supervision or detected cycle) after which no row is written. -/
theorem staff_supervisor_cycle_validation
    (db : List StaffRow) (today : Date) (s : StaffMember) (j : Nat) (r0 : StaffRow)
    (hclosed : staffDbClosed db = true)
    (hhire : dateLt today s.hire_date = false)
    (hsup : s.supervisor = some j)
    (hfind : findStaff db j = some r0) :
    ((staffClean db today s).error = none ↔
      ∃ l, supPath db l ∧ l.head? = some r0 ∧ l.length ≤ db.length ∧
        (rowIds l).Nodup ∧ s.id ∉ (rowIds l).map some) ∧
    (∀ e, (staffClean db today s).error = some e →
      (∃ msg, e = CleanError.field "supervisor" msg) ∧
      (staffSave db today s).1 = db) := by
  have hr0 : r0 ∈ db := findStaff_mem db j r0 hfind
  by_cases hself : s.id = some r0.id
  · have hb : (s.id == some r0.id) = true := beq_iff_eq.mpr hself
    have hclean : staffClean db today s =
        ⟨some (CleanError.field "supervisor"
          "A staff member cannot be their own supervisor."), s, false⟩ := by
      simp only [staffClean, hhire, Bool.false_eq_true, if_false, hsup, hfind,
        hb, if_true]
    constructor
    · rw [hclean]
      constructor
      · intro h; cases h
      · rintro ⟨l, -, hh, -, -, hids⟩
        exfalso
        cases l with
        | nil => cases hh
        | cons a t =>
          have ha : a = r0 := by simpa using hh
          exact hids (List.mem_map.mpr ⟨r0.id, by simp [rowIds, ha], hself.symm⟩)
    · intro e he
      rw [hclean] at he
      obtain rfl : CleanError.field "supervisor"
          "A staff member cannot be their own supervisor." = e := by
        simpa using he
      exact ⟨⟨_, rfl⟩, staffSave_error_no_write db today s _ (by rw [hclean])⟩
  · have hb : (s.id == some r0.id) = false := by
      rw [beq_eq_false_iff_ne]; exact hself
    have hclean : staffClean db today s =
        match walkLoop db (db.length + 1) [s.id] (some r0) with
        | WalkOut.ok => staffSync s
        | WalkOut.circular =>
          ⟨some (CleanError.field "supervisor"
            "Circular supervision hierarchy detected."), s, false⟩
        | WalkOut.dangling => ⟨some CleanError.doesNotExist, s, false⟩
        | WalkOut.outOfFuel => ⟨some CleanError.nonTermination, s, false⟩ := by
      simp only [staffClean, hhire, Bool.false_eq_true, if_false, hsup, hfind,
        hb]
    cases hw : walkLoop db (db.length + 1) [s.id] (some r0) with
    | ok =>
      rw [hw] at hclean
      rw [hclean]
      constructor
      · constructor
        · intro _
          obtain ⟨l, hp, hh, hm, hnd, hs⟩ :=
            walkLoop_ok_sound db (db.length + 1) [s.id] r0 hr0 hw
          refine ⟨l, hp, hh, ?_, hnd, ?_⟩
          · have hsub : rowIds l ⊆ db.map (fun r => r.id) := by
              intro i hi
              obtain ⟨x, hx, rfl⟩ := List.mem_map.mp hi
              exact List.mem_map_of_mem _ (hm x hx)
            calc l.length = (rowIds l).length := (List.length_map _ _).symm
              _ ≤ (db.map (fun r => r.id)).length :=
                  (hnd.subperm hsub).length_le
              _ = db.length := List.length_map _ _
          · intro hc
            obtain ⟨i, hi, hsi⟩ := List.mem_map.mp hc
            exact hs i hi (by simp [hsi])
        · intro _
          exact staffSync_error s
      · intro e he
        rw [staffSync_error s] at he
        cases he
    | circular =>
      rw [hw] at hclean
      constructor
      · rw [hclean]
        constructor
        · intro h; cases h
        · rintro ⟨l, hp, hh, hlen, hnd, hids⟩
          exfalso
          have hok := walkLoop_complete db l r0 (db.length + 1) [s.id] hp hh hnd
            (by
              intro i hi hc
              have hsi : some i = s.id := by simpa using hc
              exact hids (List.mem_map.mpr ⟨i, hi, hsi⟩))
            (by omega)
          rw [hw] at hok
          cases hok
      · intro e he
        rw [hclean] at he
        obtain rfl : CleanError.field "supervisor"
            "Circular supervision hierarchy detected." = e := by
          simpa using he
        exact ⟨⟨_, rfl⟩, staffSave_error_no_write db today s _ (by rw [hclean])⟩
    | dangling =>
      exact absurd hw (walkLoop_no_dangling db (staffDbClosed_spec db hclosed)
        (db.length + 1) [s.id] r0 hr0)
    | outOfFuel =>
      exact absurd hw (walkLoop_no_fuel_exhaustion db (db.length + 1) [s.id] r0 hr0
        (Nat.lt_succ_of_le (staffMeasure_le db [s.id])))

/-- C1 witness (concrete scenario B): with staff A (id 1, no
supervisor), B (id 2, supervisor A), C (id 3, supervisor B), setting
A's supervisor to C is rejected with the circular-hierarchy error on
the `supervisor` field, and no row is written. -/
theorem staff_supervisor_cycle_validation_witness :
    (staffClean [⟨1, none, 1⟩, ⟨2, some 1, 1⟩, ⟨3, some 2, 1⟩] ⟨2025, 1, 1⟩
        ⟨some 1, ⟨UserType.staff⟩, ⟨2019, 1, 1⟩, some 3, 1⟩).error =
      some (CleanError.field "supervisor"
        "Circular supervision hierarchy detected.") ∧
    (∃ msg, CleanError.field "supervisor"
        "Circular supervision hierarchy detected." =
      CleanError.field "supervisor" msg) ∧
    (staffSave [⟨1, none, 1⟩, ⟨2, some 1, 1⟩, ⟨3, some 2, 1⟩] ⟨2025, 1, 1⟩
        ⟨some 1, ⟨UserType.staff⟩, ⟨2019, 1, 1⟩, some 3, 1⟩).1 =
      [⟨1, none, 1⟩, ⟨2, some 1, 1⟩, ⟨3, some 2, 1⟩] :=
  ⟨rfl,
   (staff_supervisor_cycle_validation
      [⟨1, none, 1⟩, ⟨2, some 1, 1⟩, ⟨3, some 2, 1⟩] ⟨2025, 1, 1⟩
      ⟨some 1, ⟨UserType.staff⟩, ⟨2019, 1, 1⟩, some 3, 1⟩ 3 ⟨3, some 2, 1⟩
      (by decide) (by decide) rfl rfl).2
     (CleanError.field "supervisor" "Circular supervision hierarchy detected.")
     rfl⟩
